import Mathlib

set_option autoImplicit false

/-!
Verification of the session layer of the video-call SDK.

Shallow embedding of:
  * `SignalingChannel` (src/sdk/SignalingChannel.ts): outbound message queue,
    open-transition drain, the raw socket `message` handler, the listener
    table with `on`/`off`, the internal `emit` (a `for..of` loop over the
    live handler array, without try/catch), and `sendWhenReady`.
  * `TypedEventEmitter` (utils/TypedEventEmitter.ts): `emit` with a
    per-handler try/catch.
  * `EventQueue` (utils/EventQueue.ts): `add`/`processQueue` as a
    small-step transition system over the single-threaded event loop.
  * `ConnectionManager.joinRoom` / `VideoCallClient.joinCall` and the
    reconnection loop `attemptReconnection` with its backoff formula.
-/

/-! ## Message Channel: outbound queue (SignalingChannel.ts) -/

/-- State of one `SignalingChannel` relevant to outbound traffic:
`isConnected`, the `messageQueue`, and the log of messages the underlying
socket has received via `socket.send`, oldest first. -/
structure ChState (M : Type) where
  isConnected : Bool
  messageQueue : List M
  sent : List M
deriving Repr, DecidableEq

/-- A freshly constructed channel: not connected, empty queue, nothing sent. -/
def ChState.initial (M : Type) : ChState M :=
  { isConnected := false, messageQueue := [], sent := [] }

/-- `SignalingChannel.send`: transmit immediately when connected, otherwise
append to `messageQueue`. -/
def ChState.send {M : Type} (s : ChState M) (m : M) : ChState M :=
  if s.isConnected then
    { s with sent := s.sent ++ [m] }
  else
    { s with messageQueue := s.messageQueue ++ [m] }

/-- The drain loop in the socket `open` handler:
`while (queue.length > 0) { const m = queue.shift()!; socket.send(m); }`. -/
def drainLoop {M : Type} : List M → List M → List M × List M
  | [], sent => ([], sent)
  | m :: rest, sent => drainLoop rest (sent ++ [m])

/-- The socket `open` handler: set `isConnected := true`, then run the
drain loop over the message queue. -/
def ChState.handleOpen {M : Type} (s : ChState M) : ChState M :=
  let p := drainLoop s.messageQueue s.sent
  { isConnected := true, messageQueue := p.1, sent := p.2 }

/-- A sequence of `send` calls, in order. -/
def ChState.sendAll {M : Type} (s : ChState M) (ms : List M) : ChState M :=
  ms.foldl ChState.send s

/-! ## Message Channel: raw inbound messages (SignalingChannel.ts, message handler) -/

/-- The socket `message` handler of `SignalingChannel`:
`const parsed = JSON.parse(data.toString()); this.emit(parsed.type, parsed);`.
`parse` stands for the platform's `JSON.parse`, returning `none` exactly when
`JSON.parse` throws a `SyntaxError` on the raw text. The handler has no
try/catch, so a parse failure propagates as an exception (`Except.error`);
a successful parse publishes one event named by the parsed message's type. -/
def onSocketMessage {J : Type} (parse : String → Option J) (typeOf : J → String)
    (raw : String) : Except Unit (String × J) :=
  match parse raw with
  | none => Except.error ()
  | some j => Except.ok (typeOf j, j)

/-! ## Theorems: C1, C2 -/

/-- C1: every message sent via `send` before the channel is `Open` reaches the
transport in submission order, entirely before any message sent after the
`Open` transition; the transport log of a fresh channel after `pre` sends,
the open transition, and `post` sends is exactly `pre ++ post`. -/
theorem channel_send_order_across_open {M : Type} (pre post : List M) :
    ((((ChState.initial M).sendAll pre).handleOpen).sendAll post).sent
      = pre ++ post := by
  have hqueue : ∀ (ms : List M) (s : ChState M), s.isConnected = false →
      s.sendAll ms = { s with messageQueue := s.messageQueue ++ ms } := by
    intro ms
    induction ms with
    | nil => intro s _; simp [ChState.sendAll]
    | cons m rest ih =>
      intro s hs
      simp only [ChState.sendAll, List.foldl_cons]
      have h1 : s.send m = { s with messageQueue := s.messageQueue ++ [m] } := by
        simp [ChState.send, hs]
      rw [h1]
      have := ih { s with messageQueue := s.messageQueue ++ [m] } (by simpa using hs)
      simpa [ChState.sendAll, List.append_assoc] using this
  have hopen : ∀ (ms : List M) (s : ChState M), s.isConnected = true →
      s.sendAll ms = { s with sent := s.sent ++ ms } := by
    intro ms
    induction ms with
    | nil => intro s _; simp [ChState.sendAll]
    | cons m rest ih =>
      intro s hs
      simp only [ChState.sendAll, List.foldl_cons]
      have h1 : s.send m = { s with sent := s.sent ++ [m] } := by
        simp [ChState.send, hs]
      rw [h1]
      have := ih { s with sent := s.sent ++ [m] } (by simpa using hs)
      simpa [ChState.sendAll, List.append_assoc] using this
  have hdrain : ∀ (q acc : List M), drainLoop q acc = ([], acc ++ q) := by
    intro q
    induction q with
    | nil => intro acc; simp [drainLoop]
    | cons m rest ih => intro acc; simp [drainLoop, ih, List.append_assoc]
  rw [hqueue pre (ChState.initial M) rfl]
  have h2 : (({ ChState.initial M with
      messageQueue := (ChState.initial M).messageQueue ++ pre } : ChState M)).handleOpen
      = { isConnected := true, messageQueue := [], sent := pre } := by
    simp [ChState.handleOpen, ChState.initial, hdrain]
  rw [h2, hopen post _ rfl]

/-- C2 (refuting evidence): the `message` handler of `SignalingChannel` has no
try/catch around `JSON.parse`; on any raw inbound text the platform parser
rejects, the handler surfaces the exception to its caller instead of dropping
the data silently. -/
theorem onSocketMessage_throws_on_garbage {J : Type} (parse : String → Option J)
    (typeOf : J → String) (raw : String) (h : parse raw = none) :
    onSocketMessage parse typeOf raw = Except.error () := by
  simp [onSocketMessage, h]

/-- Witness for `onSocketMessage_throws_on_garbage`: a concrete parser that
rejects the concrete raw text `invalid json`. -/
theorem onSocketMessage_throws_on_garbage_witness :
    onSocketMessage (J := Unit) (fun _ => none) (fun _ => "") "invalid json"
      = Except.error () :=
  onSocketMessage_throws_on_garbage (fun _ => none) (fun _ => "") "invalid json" rfl

/-! ## Operation Queue (utils/EventQueue.ts)

`EventQueue.add` pushes a wrapper closure (which settles the caller's
promise with the task's own outcome) and calls `processQueue`.
`processQueue` returns at once when `processing` is set or the queue is
empty; otherwise it sets `processing`, and loops: shift the head task,
await it (errors caught), repeat; finally clears `processing`.

The single-threaded event loop is modelled as a labelled transition
system. Task ids are assigned in submission order by `nextId`; the oracle
`out` gives each task's outcome (instantiate `R` with a result-or-error
type to model failing tasks). `addStep` is one call to `add` (push, then
the synchronous part of `processQueue` up to the first await).
`finishStep out s i` is the resumption when the awaited task `i`
completes: its wrapper settles the caller's promise with `(i, out i)`,
and the drain loop either shifts and starts the next task or clears
`processing`. -/

/-- Observable events of the Operation Queue, in chronological order. -/
inductive QEv where
  | added (i : Nat)
  | started (i : Nat)
  | finished (i : Nat)
deriving Repr, DecidableEq

/-- State of one `EventQueue` plus the instrumentation needed to state the
claims: `queue` and `processing` are the fields of the class; `running`
lists the tasks currently executing (the code never stores this — the
model tracks it to state mutual exclusion); `nextId` numbers submissions;
`settled` logs promise settlements `(task, outcome)`; `trace` logs events. -/
structure EQState (R : Type) where
  queue : List Nat
  processing : Bool
  running : List Nat
  nextId : Nat
  settled : List (Nat × R)
  trace : List QEv
deriving Repr, DecidableEq

/-- A freshly constructed `EventQueue`. -/
def EQState.initial (R : Type) : EQState R :=
  { queue := [], processing := false, running := [], nextId := 0,
    settled := [], trace := [] }

/-- The synchronous part of `processQueue`: return if `processing` or the
queue is empty; otherwise set `processing`, shift the head task and start
executing it (up to its first await). -/
def processQueueStep {R : Type} (s : EQState R) : EQState R :=
  if s.processing then s
  else
    match s.queue with
    | [] => s
    | h :: t =>
      { s with processing := true, queue := t,
               running := s.running ++ [h],
               trace := s.trace ++ [QEv.started h] }

/-- `EventQueue.add`: push the wrapper for the next task id, then call
`processQueue`. -/
def addStep {R : Type} (s : EQState R) : EQState R :=
  processQueueStep
    { s with queue := s.queue ++ [s.nextId],
             nextId := s.nextId + 1,
             trace := s.trace ++ [QEv.added s.nextId] }

/-- Resumption of the drain loop when the awaited task `i` completes: the
wrapper settles task `i`'s promise with its own outcome `out i` (resolve on
success, reject on failure — the loop continues either way), then the loop
shifts and starts the next task, or clears `processing` when none is left. -/
def finishStep {R : Type} (out : Nat → R) (s : EQState R) (i : Nat) : EQState R :=
  let s1 := { s with running := s.running.erase i,
                     settled := s.settled ++ [(i, out i)],
                     trace := s.trace ++ [QEv.finished i] }
  match s1.queue with
  | [] => { s1 with processing := false }
  | h :: t =>
    { s1 with queue := t, running := s1.running ++ [h],
              trace := s1.trace ++ [QEv.started h] }

/-- Interleavings of the event loop: at any point a caller may submit a task
(`add`), or a currently executing task may complete (`finish`). -/
inductive EQStep {R : Type} (out : Nat → R) : EQState R → EQState R → Prop where
  | add (s : EQState R) : EQStep out s (addStep s)
  | finish (s : EQState R) (i : Nat) (h : i ∈ s.running) :
      EQStep out s (finishStep out s i)

/-- States reachable from a fresh queue. -/
inductive EQReach {R : Type} (out : Nat → R) : EQState R → Prop where
  | init : EQReach out (EQState.initial R)
  | step {s t : EQState R} : EQReach out s → EQStep out s t → EQReach out t

/-- Is the event a `started` or `finished` record? -/
def isStartFin : QEv → Bool
  | QEv.added _ => false
  | QEv.started _ => true
  | QEv.finished _ => true

/-- Is the event an `added` record? -/
def isAdded : QEv → Bool
  | QEv.added _ => true
  | _ => false

/-- Is the event a `started` record? -/
def isStarted : QEv → Bool
  | QEv.started _ => true
  | _ => false

/-- Projection of a trace onto execution events. -/
def sfProj (tr : List QEv) : List QEv := tr.filter isStartFin

/-- The fully sequential execution trace of tasks `0 .. d-1`:
each task starts only after the previous one finished. -/
def runTrace (d : Nat) : List QEv :=
  (List.range d).flatMap (fun i => [QEv.started i, QEv.finished i])


/-- Inductive invariant of the Operation Queue: `d` tasks have finished, the
running list is empty (idle) or the single task `d` (busy), the queue holds
the `k` consecutively numbered pending tasks, every settled promise carries
its own task's outcome, and the execution trace is fully sequential. -/
def EQInv {R : Type} (out : Nat → R) (s : EQState R) : Prop :=
  ∃ d k,
    ((s.processing = false ∧ s.running = [] ∧ s.queue = []) ∨
      (s.processing = true ∧ s.running = [d])) ∧
    s.queue = List.range' (d + s.running.length) k ∧
    s.nextId = d + s.running.length + k ∧
    s.settled = (List.range d).map (fun i => (i, out i)) ∧
    sfProj s.trace = runTrace d ++ s.running.map QEv.started ∧
    s.trace.countP isAdded = s.nextId ∧
    s.trace.countP isStarted = d + s.running.length

theorem runTrace_succ (d : Nat) :
    runTrace (d + 1) = runTrace d ++ [QEv.started d, QEv.finished d] := by
  simp [runTrace, List.range_succ]

theorem eqInv_initial {R : Type} (out : Nat → R) : EQInv out (EQState.initial R) :=
  ⟨0, 0, Or.inl ⟨rfl, rfl, rfl⟩, by simp [EQState.initial], by simp [EQState.initial],
    by simp [EQState.initial], by simp [EQState.initial, sfProj, runTrace],
    by simp [EQState.initial], by simp [EQState.initial]⟩

theorem eqInv_add {R : Type} (out : Nat → R) (s : EQState R) (h : EQInv out s) :
    EQInv out (addStep s) := by
  obtain ⟨d, k, hshape, hq, hn, hst, hsf, hca, hcs⟩ := h
  rcases hshape with ⟨hp, hr, hqe⟩ | ⟨hp, hr⟩
  · -- idle: the submitted task starts at once
    have hk0 : k = 0 := by
      have := congrArg List.length hq
      rw [hqe] at this
      simp at this
      omega
    have hnd : s.nextId = d := by rw [hn, hr, hk0]; simp
    have hstep : addStep s =
        { s with processing := true, queue := [], running := [d],
                 nextId := d + 1,
                 trace := s.trace ++ [QEv.added d, QEv.started d] } := by
      simp [addStep, processQueueStep, hp, hr, hqe, hnd]
    rw [hstep]
    refine ⟨d, 0, Or.inr ⟨rfl, rfl⟩, by simp, by simp, by simpa using hst, ?_, ?_, ?_⟩
    · simp only [sfProj, List.filter_append] at hsf ⊢
      rw [hsf, hr]
      simp [isStartFin]
    · simp [List.countP_cons, isAdded, isStarted, hca, hnd]
    · simp [List.countP_cons, isStarted, isAdded, isStartFin, hcs, hr]
  · -- busy: the task is appended; processQueue returns at once
    have hstep : addStep s =
        { s with queue := s.queue ++ [s.nextId], nextId := s.nextId + 1,
                 trace := s.trace ++ [QEv.added s.nextId] } := by
      simp [addStep, processQueueStep, hp]
    rw [hstep]
    have hrl : s.running.length = 1 := by rw [hr]; rfl
    refine ⟨d, k + 1, Or.inr ⟨hp, hr⟩, ?_, ?_, by simpa using hst, ?_, ?_, ?_⟩
    · simp only
      rw [List.range'_1_concat, ← hq, hn, hrl]
    · simp only
      omega
    · simp only [sfProj, List.filter_append] at hsf ⊢
      rw [hsf]
      simp [isStartFin]
    · simp [List.countP_cons, isAdded, isStarted, hca]
    · simp [List.countP_cons, isStarted, isAdded, hcs]

theorem eqInv_finish {R : Type} (out : Nat → R) (s : EQState R) (i : Nat)
    (hi : i ∈ s.running) (h : EQInv out s) : EQInv out (finishStep out s i) := by
  obtain ⟨d, k, hshape, hq, hn, hst, hsf, hca, hcs⟩ := h
  rcases hshape with ⟨hp, hr, hqe⟩ | ⟨hp, hr⟩
  · rw [hr] at hi; simp at hi
  · have hid : i = d := by rw [hr] at hi; simpa using hi
    subst hid
    have hrl : s.running.length = 1 := by rw [hr]; rfl
    have hstl : s.settled ++ [(i, out i)] =
        (List.range (i + 1)).map (fun j => (j, out j)) := by
      simp [hst, List.range_succ]
    cases hqcases : s.queue with
    | nil =>
      have hk : k = 0 := by
        have := congrArg List.length hq
        rw [hqcases] at this
        simp at this
        omega
      have hstep : finishStep out s i =
          { s with processing := false, queue := [], running := [],
                   settled := s.settled ++ [(i, out i)],
                   trace := s.trace ++ [QEv.finished i] } := by
        simp [finishStep, hqcases, hr]
      rw [hstep]
      refine ⟨i + 1, 0, Or.inl ⟨rfl, rfl, rfl⟩, by simp, ?_, by simpa using hstl, ?_, ?_, ?_⟩
      · simp only [List.length_nil]
        omega
      · simp only [sfProj, List.filter_append] at hsf ⊢
        rw [hsf, hr, runTrace_succ]
        simp [isStartFin]
      · simp [List.countP_cons, isAdded, isStarted, hca]
      · simp only [List.length_nil]
        simp [List.countP_cons, isStarted, isAdded]
        omega
    | cons qh qt =>
      have hk : List.range' (i + 1) k = qh :: qt := by
        rw [← hqcases, hq, hrl]
      rw [List.range'_eq_cons_iff] at hk
      obtain ⟨hqh, hkpos, hqt⟩ := hk
      have hstep : finishStep out s i =
          { s with queue := qt, running := [qh],
                   settled := s.settled ++ [(i, out i)],
                   trace := s.trace ++ [QEv.finished i, QEv.started qh] } := by
        simp [finishStep, hqcases, hr]
      rw [hstep]
      subst hqh
      refine ⟨i + 1, k - 1, Or.inr ⟨hp, rfl⟩, ?_, ?_, by simpa using hstl, ?_, ?_, ?_⟩
      · simp only [List.length_cons, List.length_nil]
        rw [hqt]
      · simp only [List.length_cons, List.length_nil]
        omega
      · simp only [sfProj, List.filter_append] at hsf ⊢
        rw [hsf, hr, runTrace_succ]
        simp [isStartFin]
      · simp [List.countP_cons, isAdded, isStarted, hca]
      · simp only [List.length_cons, List.length_nil]
        simp [List.countP_cons, isStarted, isAdded]
        omega

theorem eqInv_reach {R : Type} (out : Nat → R) (s : EQState R)
    (h : EQReach out s) : EQInv out s := by
  induction h with
  | init => exact eqInv_initial out
  | step _ hstep ih =>
    cases hstep with
    | add => exact eqInv_add out _ ih
    | finish i hi => exact eqInv_finish out _ i hi ih

/-- `EventQueue.size`: `get size() { return this.queue.length; }`. -/
def EQState.size {R : Type} (s : EQState R) : Nat := s.queue.length

/-- `EventQueue.isProcessing`: `get isProcessing() { return this.processing; }`. -/
def EQState.isProcessing {R : Type} (s : EQState R) : Bool := s.processing

/-! ## Theorems: C3, C4, C9 -/

/-- C3: in every reachable state of the Operation Queue, at most one task is
executing, and the chronological execution trace is fully sequential in
submission order: `started 0, finished 0, started 1, finished 1, …`, with at
most the `started` record of the one currently running task unmatched — so
task `k+1` never starts before task `k` has completed (succeeded or failed),
and tasks start in strict submission order. -/
theorem eventQueue_mutual_exclusion_and_order {R : Type} (out : Nat → R)
    (s : EQState R) (h : EQReach out s) :
    s.running.length ≤ 1 ∧
    ∃ d, sfProj s.trace = runTrace d ++ s.running.map QEv.started := by
  obtain ⟨d, k, hshape, hq, hn', hst, hsf, hca, hcs⟩ := eqInv_reach out s h
  constructor
  · rcases hshape with ⟨_, hr, _⟩ | ⟨_, hr⟩ <;> simp [hr]
  · exact ⟨d, hsf⟩

/-- Witness for `eventQueue_mutual_exclusion_and_order` at the reachable
state after one `add` on a fresh queue. -/
theorem eventQueue_mutual_exclusion_and_order_witness :
    (addStep (EQState.initial Bool)).running.length ≤ 1 ∧
    ∃ d, sfProj (addStep (EQState.initial Bool)).trace
      = runTrace d ++ (addStep (EQState.initial Bool)).running.map QEv.started :=
  eventQueue_mutual_exclusion_and_order (fun _ => true) _
    (EQReach.step EQReach.init (EQStep.add _))

/-- Draining: from any state satisfying the invariant, letting every running
and pending task complete reaches a quiescent state with the same submission
count. -/
theorem eqDrain {R : Type} (out : Nat → R) :
    ∀ n (s : EQState R), EQInv out s → s.queue.length + s.running.length ≤ n →
    ∃ t, Relation.ReflTransGen (EQStep out) s t ∧ EQInv out t ∧
      t.nextId = s.nextId ∧ t.running = [] ∧ t.queue = [] := by
  intro n
  induction n with
  | zero =>
    intro s hinv hlen
    have hr : s.running = [] := by
      have : s.running.length = 0 := by omega
      simpa using this
    have hq : s.queue = [] := by
      have : s.queue.length = 0 := by omega
      simpa using this
    exact ⟨s, Relation.ReflTransGen.refl, hinv, rfl, hr, hq⟩
  | succ n ih =>
    intro s hinv hlen
    obtain ⟨d, k, hshape, hq, hn', hst, hsf, hca, hcs⟩ := hinv
    rcases hshape with ⟨hp, hr, hqe⟩ | ⟨hp, hr⟩
    · exact ⟨s, Relation.ReflTransGen.refl,
        ⟨d, k, Or.inl ⟨hp, hr, hqe⟩, hq, hn', hst, hsf, hca, hcs⟩, rfl, hr, hqe⟩
    · have hd : d ∈ s.running := by rw [hr]; simp
      have hstep : EQStep out s (finishStep out s d) := EQStep.finish s d hd
      have hinv' : EQInv out (finishStep out s d) :=
        eqInv_finish out s d hd ⟨d, k, Or.inr ⟨hp, hr⟩, hq, hn', hst, hsf, hca, hcs⟩
      have hfields :
          (finishStep out s d).queue.length + (finishStep out s d).running.length ≤ n ∧
          (finishStep out s d).nextId = s.nextId := by
        cases hq2 : s.queue with
        | nil =>
          constructor
          · simp only [finishStep, hq2, hr]
            simp
          · simp [finishStep, hq2]
        | cons a b =>
          have hql : s.queue.length = b.length + 1 := by simp [hq2]
          have hrl : s.running.length = 1 := by rw [hr]; rfl
          constructor
          · simp only [finishStep, hq2, hr]
            simp only [List.erase_cons_head]
            simp
            omega
          · simp [finishStep, hq2]
      obtain ⟨t, hsteps, hinvt, hnt, hrt, hqt⟩ :=
        ih (finishStep out s d) hinv' hfields.1
      exact ⟨t, Relation.ReflTransGen.head hstep hsteps, hinvt,
        by rw [hnt, hfields.2], hrt, hqt⟩

/-- C4: fault isolation of the Operation Queue. From any reachable state, the
event loop can settle every submitted task: the queue drains to a state in
which each submitted task `i` has settled its own promise with its own
outcome `out i` — the oracle `out` is arbitrary, so a rejecting earlier task
(instantiate `R` with a result-or-error type) neither prevents a later task
from running to completion nor leaks its error into any sibling's promise. -/
theorem eventQueue_fault_isolation {R : Type} (out : Nat → R) (s : EQState R)
    (h : EQReach out s) :
    ∃ t, Relation.ReflTransGen (EQStep out) s t ∧
      t.settled = (List.range s.nextId).map (fun i => (i, out i)) ∧
      ∀ i, i < s.nextId → (i, out i) ∈ t.settled := by
  obtain ⟨t, hsteps, hinvt, hnt, hrt, hqt⟩ :=
    eqDrain out (s.queue.length + s.running.length) s (eqInv_reach out s h) le_rfl
  obtain ⟨d, k, hshape, hq, hn', hst, hsf, hca, hcs⟩ := hinvt
  have hk : k = 0 := by
    have := congrArg List.length hq
    rw [hqt] at this
    simp at this
    omega
  have hdn : d = s.nextId := by
    rw [← hnt, hn', hrt, hk]
    simp
  refine ⟨t, hsteps, by rw [hst, hdn], ?_⟩
  intro i hi
  rw [hst]
  simp only [List.mem_map]
  exact ⟨i, by rw [List.mem_range, hdn]; exact hi, rfl⟩

/-- Witness for `eventQueue_fault_isolation`: two tasks submitted, the first
of which rejects; the second still settles with its own successful outcome. -/
theorem eventQueue_fault_isolation_witness :
    ∃ t, Relation.ReflTransGen
        (EQStep (fun i => if i = 0 then Except.error "task failed" else Except.ok i))
        (addStep (addStep (EQState.initial (Except String Nat)))) t ∧
      t.settled = (List.range
          (addStep (addStep (EQState.initial (Except String Nat)))).nextId).map
        (fun i => (i, if i = 0 then Except.error "task failed" else Except.ok i)) ∧
      ∀ i, i < (addStep (addStep (EQState.initial (Except String Nat)))).nextId →
        (i, if i = 0 then Except.error "task failed" else Except.ok i) ∈ t.settled :=
  eventQueue_fault_isolation _ _
    (EQReach.step (EQReach.step EQReach.init (EQStep.add _)) (EQStep.add _))

/-- C9 counterexample: after one `add` on a fresh queue the submitted task is
in flight (`running` holds one task, nothing is pending), yet the `size`
accessor returns `queue.length = 0`, not pending + in-flight = 1 — because
`processQueue` shifts a task off the queue before awaiting it. -/
theorem eventQueue_size_counterexample :
    EQReach (fun _ => true) (addStep (EQState.initial Bool)) ∧
    (addStep (EQState.initial Bool)).running.length = 1 ∧
    (addStep (EQState.initial Bool)).queue.length = 0 ∧
    (addStep (EQState.initial Bool)).size = 0 ∧
    (addStep (EQState.initial Bool)).size ≠
      (addStep (EQState.initial Bool)).queue.length +
        (addStep (EQState.initial Bool)).running.length := by
  refine ⟨EQReach.step EQReach.init (EQStep.add _), ?_, ?_, ?_, ?_⟩ <;> decide

/-- C9 amended: in every reachable state the `size` accessor equals the
number of pending tasks only — submitted (`added`) but not yet `started` —
excluding the in-flight task; in particular it is 0, not 1, while a task
executes with none queued. -/
theorem eventQueue_size_pending_only {R : Type} (out : Nat → R) (s : EQState R)
    (h : EQReach out s) :
    s.size = s.trace.countP isAdded - s.trace.countP isStarted := by
  obtain ⟨d, k, hshape, hq, hn', hst, hsf, hca, hcs⟩ := eqInv_reach out s h
  have hql : s.queue.length = k := by rw [hq]; simp
  show s.queue.length = _
  omega

/-- Witness for `eventQueue_size_pending_only` at the reachable state after
one `add` on a fresh queue. -/
theorem eventQueue_size_pending_only_witness :
    (addStep (EQState.initial Bool)).size =
      (addStep (EQState.initial Bool)).trace.countP isAdded -
        (addStep (EQState.initial Bool)).trace.countP isStarted :=
  eventQueue_size_pending_only (fun _ => true) _
    (EQReach.step EQReach.init (EQStep.add _))

/-! ## Session Controller: join (ConnectionManager.joinRoom / VideoCallClient.joinCall) -/

/-- The fields of `ConnectionManager` (equally `VideoCallClient`) that
`joinRoom` reads or writes: the stored session identity and the reconnection
state. `none` models the TypeScript `undefined`. -/
structure CMState where
  roomId : Option String
  userId : Option String
  isReconnecting : Bool
  reconnectAttempts : Nat
deriving Repr, DecidableEq

/-- A freshly constructed manager. -/
def CMState.initial : CMState :=
  { roomId := none, userId := none, isReconnecting := false,
    reconnectAttempts := 0 }

/-- JavaScript truthiness of a `string | undefined` field: `undefined` and
the empty string are both falsy. -/
def truthy : Option String → Bool
  | none => false
  | some s => !(s == "")

/-- `joinRoom(roomId, userId)` (identical logic in `joinCall`): throw
`'Already in a call. Call leaveCall() first.'` when `this.roomId &&
this.userId` is truthy; otherwise store the identity, then await
`sendWhenReady` of the join request — its outcome is the parameter
`sendOutcome` — and on failure roll the identity back to `undefined` and
rethrow. Returns the post-state and the async result. -/
def joinRoom (sendOutcome : Except String Unit) (s : CMState)
    (roomId userId : String) : CMState × Except String Unit :=
  if truthy s.roomId && truthy s.userId then
    (s, Except.error "Already in a call. Call leaveCall() first.")
  else
    let s1 := { s with roomId := some roomId, userId := some userId }
    match sendOutcome with
    | Except.ok () => (s1, Except.ok ())
    | Except.error e =>
      ({ s1 with roomId := none, userId := none }, Except.error e)

/-! ## Theorems: C5 -/

/-- C5 counterexample: `joinRoom` with the empty room id succeeds and sets
the identity to `("", "u1")`; a second `joinRoom` is then NOT rejected — the
guard `this.roomId && this.userId` treats the stored empty string as falsy —
and the second call succeeds and overwrites the first identity. -/
theorem joinRoom_double_join_counterexample :
    (joinRoom (Except.ok ()) CMState.initial "" "u1").1.roomId = some "" ∧
    (joinRoom (Except.ok ()) CMState.initial "" "u1").1.userId = some "u1" ∧
    (joinRoom (Except.ok ())
        (joinRoom (Except.ok ()) CMState.initial "" "u1").1 "r2" "u2").2
      = Except.ok () ∧
    (joinRoom (Except.ok ())
        (joinRoom (Except.ok ()) CMState.initial "" "u1").1 "r2" "u2").1.roomId
      = some "r2" :=
  ⟨rfl, rfl, rfl, rfl⟩

/-- C5 amended: when both stored identity fields are truthy (nonempty
strings), a second `joinRoom` rejects with the 'already in a call' error and
has no side effects: the returned state is the input state, unchanged in
every field. -/
theorem joinRoom_double_join_rejected (sendOutcome : Except String Unit)
    (s : CMState) (roomId userId : String)
    (h1 : truthy s.roomId = true) (h2 : truthy s.userId = true) :
    joinRoom sendOutcome s roomId userId
      = (s, Except.error "Already in a call. Call leaveCall() first.") := by
  simp [joinRoom, h1, h2]

/-- Witness for `joinRoom_double_join_rejected` at a concrete active
identity. -/
theorem joinRoom_double_join_rejected_witness :
    joinRoom (Except.ok ())
        { roomId := some "room-a", userId := some "u1",
          isReconnecting := false, reconnectAttempts := 0 } "r2" "u2"
      = ({ roomId := some "room-a", userId := some "u1",
           isReconnecting := false, reconnectAttempts := 0 },
         Except.error "Already in a call. Call leaveCall() first.") :=
  joinRoom_double_join_rejected (Except.ok ()) _ "r2" "u2" (by decide) (by decide)

/-! ## Session Controller: reconnection loop (attemptReconnection)

After the terminal guard fires, the controller clears `isReconnecting` but
never resets `reconnectAttempts` (only `stopReconnection` and a successful
rejoin do), and the identity is retained. The last attempt's channel is
still wired to `setupSignalingEvents`, so its subsequent `close` event (ws
delivers `close` after the `error` that failed the await) runs the `close`
handler, which sees `isReconnecting == false` and calls
`initiateReconnection` again. -/

/-- Controller events observable around reconnection. -/
inductive CEv where
  | disconnected
  | reconnecting
  | reconnectionFailed
deriving Repr, DecidableEq

/-- The reconnection-relevant state of `ConnectionManager` /
`VideoCallClient`, instrumented with the number of backoff timers armed and
signaling channels constructed, and the list of emitted events. -/
structure RState where
  isReconnecting : Bool
  reconnectAttempts : Nat
  maxReconnectAttempts : Nat
  roomId : Option String
  userId : Option String
  timersArmed : Nat
  channelsConstructed : Nat
  events : List CEv
deriving Repr, DecidableEq

/-- `attemptReconnection` under the schedule in which every attempt fails
(the awaited first `open`-or-`error` of each freshly constructed channel
rejects, by transport error or the 10 s timeout). The guard
`reconnectAttempts >= maxReconnectAttempts` clears `isReconnecting`, emits
`reconnectionFailed` and returns — arming no timer, constructing no channel,
and NOT resetting `reconnectAttempts`. Otherwise the counter is
incremented, a backoff timer is armed, its callback constructs a fresh
`SignalingChannel`, the await rejects, and the catch block re-enters
`attemptReconnection`. -/
def attemptReconnectionAllFail (s : RState) : RState :=
  if _h : s.maxReconnectAttempts ≤ s.reconnectAttempts then
    { s with isReconnecting := false,
             events := s.events ++ [CEv.reconnectionFailed] }
  else
    attemptReconnectionAllFail
      { s with reconnectAttempts := s.reconnectAttempts + 1,
               timersArmed := s.timersArmed + 1,
               channelsConstructed := s.channelsConstructed + 1 }
termination_by s.maxReconnectAttempts - s.reconnectAttempts
decreasing_by simp_wf; omega

theorem attemptReconnectionAllFail_spec : ∀ (n : Nat) (s : RState),
    s.maxReconnectAttempts - s.reconnectAttempts = n →
    attemptReconnectionAllFail s =
      { s with isReconnecting := false,
               reconnectAttempts := s.reconnectAttempts + n,
               timersArmed := s.timersArmed + n,
               channelsConstructed := s.channelsConstructed + n,
               events := s.events ++ [CEv.reconnectionFailed] } := by
  intro n
  induction n with
  | zero =>
    intro s hn
    rw [attemptReconnectionAllFail]
    have hg : s.maxReconnectAttempts ≤ s.reconnectAttempts := by omega
    rw [dif_pos hg]
    simp
  | succ n ih =>
    intro s hn
    rw [attemptReconnectionAllFail]
    have hg : ¬ s.maxReconnectAttempts ≤ s.reconnectAttempts := by omega
    rw [dif_neg hg]
    rw [ih _ (by simp; omega)]
    simp [RState.mk.injEq]
    omega

/-- `initiateReconnection`: `if (this.isReconnecting || !this.roomId ||
!this.userId) return;` (JS truthiness), else set the flag, emit
`reconnecting` and call `attemptReconnection` — continued here under the
all-fail schedule. -/
def initiateReconnection (s : RState) : RState :=
  if s.isReconnecting || !(truthy s.roomId) || !(truthy s.userId) then s
  else
    attemptReconnectionAllFail
      { s with isReconnecting := true,
               events := s.events ++ [CEv.reconnecting] }

/-- The channel `close` handler installed by `setupSignalingEvents`:
`if (!this.isReconnecting) { this.emit('disconnected');
this.initiateReconnection(); }` (the `error` handler re-enters the same
way). -/
def handleChannelClose (s : RState) : RState :=
  if s.isReconnecting then s
  else initiateReconnection { s with events := s.events ++ [CEv.disconnected] }

theorem handleChannelClose_of_terminal (r : RState)
    (hflag : r.isReconnecting = false)
    (hatt : r.maxReconnectAttempts ≤ r.reconnectAttempts)
    (h1 : truthy r.roomId = true) (h2 : truthy r.userId = true) :
    handleChannelClose r
      = { r with events := r.events
            ++ [CEv.disconnected, CEv.reconnecting, CEv.reconnectionFailed] } := by
  unfold handleChannelClose initiateReconnection
  simp only [hflag, h1, h2, Bool.not_true, Bool.false_or, Bool.or_false,
    Bool.or_self, if_false]
  rw [attemptReconnectionAllFail_spec 0 _
    (by show r.maxReconnectAttempts - r.reconnectAttempts = 0; omega)]
  simp [hflag]

/-- The controller state at the start of a live reconnection episode:
identity `(room-a, u1)` set, `maxReconnectAttempts = 5`,
`reconnectAttempts = 0`, the `reconnecting` event just emitted by
`initiateReconnection`. -/
def reconnectEpisodeStart : RState :=
  { isReconnecting := true, reconnectAttempts := 0, maxReconnectAttempts := 5,
    roomId := some "room-a", userId := some "u1",
    timersArmed := 0, channelsConstructed := 0,
    events := [CEv.reconnecting] }

/-! ## Theorems: C7 -/

/-- C7 counterexample: after the 5-attempt all-fail episode the loop has
published `reconnectionFailed` once and stopped, but `reconnectAttempts` is
still 5 (never reset) and the identity is retained; when the last attempt's
channel then emits `close`, the `close` handler sees `isReconnecting ==
false`, re-enters `initiateReconnection` → `attemptReconnection`, and the
terminal guard publishes `reconnectionFailed` a SECOND time — so 'publishes
reconnectionFailed exactly once' is false of the controller. -/
theorem reconnectionFailed_republished_counterexample :
    (attemptReconnectionAllFail reconnectEpisodeStart).events.count
        CEv.reconnectionFailed = 1 ∧
    (attemptReconnectionAllFail reconnectEpisodeStart).reconnectAttempts = 5 ∧
    (attemptReconnectionAllFail reconnectEpisodeStart).isReconnecting = false ∧
    (handleChannelClose
        (attemptReconnectionAllFail reconnectEpisodeStart)).events.count
      CEv.reconnectionFailed = 2 := by
  have h5 := attemptReconnectionAllFail_spec 5 reconnectEpisodeStart rfl
  have hc := handleChannelClose_of_terminal
    (attemptReconnectionAllFail reconnectEpisodeStart)
    (by rw [h5]) (by rw [h5]; decide) (by rw [h5]; decide) (by rw [h5]; decide)
  rw [hc, h5]
  decide

/-- C7 amended: running the reconnection loop with every attempt failing:
the loop itself appends exactly one event, `reconnectionFailed`; it arms
exactly `maxAttempts − attempts` further timers and constructs that many
channels — none after the terminal guard fires; the identity is retained;
`isReconnecting` ends false while `reconnectAttempts` is NOT reset (it ends
at `maxAttempts`). The event is therefore not exactly once overall: each
subsequent `close` event of the last attempt's channel re-enters
`initiateReconnection` and, hitting the terminal guard at once, appends
`disconnected`, `reconnecting` and another `reconnectionFailed` — still
arming no timer, constructing no channel, and leaving identity,
`reconnectAttempts` and the cleared flag unchanged. -/
theorem reconnection_terminal_and_reentry (s : RState)
    (h1 : truthy s.roomId = true) (h2 : truthy s.userId = true) :
    (attemptReconnectionAllFail s).events
      = s.events ++ [CEv.reconnectionFailed] ∧
    (attemptReconnectionAllFail s).timersArmed
      = s.timersArmed + (s.maxReconnectAttempts - s.reconnectAttempts) ∧
    (attemptReconnectionAllFail s).channelsConstructed
      = s.channelsConstructed + (s.maxReconnectAttempts - s.reconnectAttempts) ∧
    (attemptReconnectionAllFail s).roomId = s.roomId ∧
    (attemptReconnectionAllFail s).userId = s.userId ∧
    (attemptReconnectionAllFail s).isReconnecting = false ∧
    (attemptReconnectionAllFail s).reconnectAttempts
      = s.reconnectAttempts + (s.maxReconnectAttempts - s.reconnectAttempts) ∧
    handleChannelClose (attemptReconnectionAllFail s)
      = { attemptReconnectionAllFail s with
          events := (attemptReconnectionAllFail s).events
            ++ [CEv.disconnected, CEv.reconnecting, CEv.reconnectionFailed] } := by
  have hspec := attemptReconnectionAllFail_spec
    (s.maxReconnectAttempts - s.reconnectAttempts) s rfl
  refine ⟨by rw [hspec], by rw [hspec], by rw [hspec], by rw [hspec],
    by rw [hspec], by rw [hspec], by rw [hspec], ?_⟩
  apply handleChannelClose_of_terminal
  · rw [hspec]
  · rw [hspec]
    show s.maxReconnectAttempts
      ≤ s.reconnectAttempts + (s.maxReconnectAttempts - s.reconnectAttempts)
    omega
  · rw [hspec]
    exact h1
  · rw [hspec]
    exact h2

/-- Witness for `reconnection_terminal_and_reentry` at the concrete episode
start state. -/
theorem reconnection_terminal_and_reentry_witness :
    (attemptReconnectionAllFail reconnectEpisodeStart).events
      = reconnectEpisodeStart.events ++ [CEv.reconnectionFailed] ∧
    (attemptReconnectionAllFail reconnectEpisodeStart).timersArmed
      = reconnectEpisodeStart.timersArmed
        + (reconnectEpisodeStart.maxReconnectAttempts
            - reconnectEpisodeStart.reconnectAttempts) ∧
    (attemptReconnectionAllFail reconnectEpisodeStart).channelsConstructed
      = reconnectEpisodeStart.channelsConstructed
        + (reconnectEpisodeStart.maxReconnectAttempts
            - reconnectEpisodeStart.reconnectAttempts) ∧
    (attemptReconnectionAllFail reconnectEpisodeStart).roomId
      = reconnectEpisodeStart.roomId ∧
    (attemptReconnectionAllFail reconnectEpisodeStart).userId
      = reconnectEpisodeStart.userId ∧
    (attemptReconnectionAllFail reconnectEpisodeStart).isReconnecting = false ∧
    (attemptReconnectionAllFail reconnectEpisodeStart).reconnectAttempts
      = reconnectEpisodeStart.reconnectAttempts
        + (reconnectEpisodeStart.maxReconnectAttempts
            - reconnectEpisodeStart.reconnectAttempts) ∧
    handleChannelClose (attemptReconnectionAllFail reconnectEpisodeStart)
      = { attemptReconnectionAllFail reconnectEpisodeStart with
          events := (attemptReconnectionAllFail reconnectEpisodeStart).events
            ++ [CEv.disconnected, CEv.reconnecting, CEv.reconnectionFailed] } :=
  reconnection_terminal_and_reentry reconnectEpisodeStart (by decide) (by decide)

/-! ## Reconnection backoff delay (attemptReconnection, delay computation) -/

/-- `private reconnectDelay = 1000` — the base delay, in milliseconds, of
both `ConnectionManager` and `VideoCallClient`; never reassigned. -/
def reconnectDelay : ℚ := 1000

/-- The deterministic part of the delay of attempt `n ≥ 1`:
`this.reconnectDelay * Math.pow(2, this.reconnectAttempts - 1)`. -/
def baseBackoff (n : Nat) : ℚ := reconnectDelay * 2 ^ (n - 1)

/-- The delay computed for attempt `n`, where `r` is the value returned by
`Math.random()` (in `[0, 1)`):
`this.reconnectDelay * Math.pow(2, attempt - 1) + Math.random() * 1000`. -/
def backoffDelay (r : ℚ) (n : Nat) : ℚ :=
  reconnectDelay * 2 ^ (n - 1) + r * 1000

/-! ## Theorems: C8 -/

/-- C8: for every attempt `1 ≤ n ≤ maxAttempts = 5` and every `Math.random()`
value `r ∈ [0, 1)`, the computed delay equals `reconnectDelay × 2^(n−1)` plus
the jitter `1000·r`; the jitter lies in `[0, reconnectDelay)` (the jitter
unit 1000 ms equals `reconnectDelay`); the deterministic base delays are
strictly increasing across attempts 1..5; and each delay is bounded above by
base + `reconnectDelay`. -/
theorem backoff_growth (n : Nat) (r : ℚ) (h1 : 1 ≤ n) (h5 : n ≤ 5)
    (hr0 : 0 ≤ r) (hr1 : r < 1) :
    backoffDelay r n = baseBackoff n + 1000 * r ∧
    0 ≤ 1000 * r ∧ 1000 * r < reconnectDelay ∧
    (n < 5 → baseBackoff n < baseBackoff (n + 1)) ∧
    baseBackoff n ≤ backoffDelay r n ∧
    backoffDelay r n < baseBackoff n + reconnectDelay := by
  have hjit0 : (0 : ℚ) ≤ 1000 * r := by
    have : (0 : ℚ) ≤ 1000 := by norm_num
    exact mul_nonneg this hr0
  have hjit1 : 1000 * r < reconnectDelay := by
    rw [reconnectDelay]
    have := mul_lt_mul_of_pos_left hr1 (show (0:ℚ) < 1000 by norm_num)
    simpa using this
  refine ⟨by rw [backoffDelay, baseBackoff]; ring, hjit0, hjit1, ?_, ?_, ?_⟩
  · intro _
    rw [baseBackoff, baseBackoff]
    have hexp : (2 : ℚ) ^ (n - 1) < 2 ^ (n + 1 - 1) := by
      apply pow_lt_pow_right₀ (by norm_num : (1:ℚ) < 2)
      omega
    have hpos : (0 : ℚ) < reconnectDelay := by rw [reconnectDelay]; norm_num
    exact mul_lt_mul_of_pos_left hexp hpos
  · rw [backoffDelay, baseBackoff]
    linarith
  · rw [backoffDelay, baseBackoff]
    linarith

/-- Witness for `backoff_growth` at attempt 1 with `Math.random() = 1/2`. -/
theorem backoff_growth_witness :
    backoffDelay (1/2) 1 = baseBackoff 1 + 1000 * (1/2) ∧
    0 ≤ 1000 * ((1:ℚ)/2) ∧ 1000 * ((1:ℚ)/2) < reconnectDelay ∧
    (1 < 5 → baseBackoff 1 < baseBackoff (1 + 1)) ∧
    baseBackoff 1 ≤ backoffDelay (1/2) 1 ∧
    backoffDelay (1/2) 1 < baseBackoff 1 + reconnectDelay :=
  backoff_growth 1 (1/2) (by norm_num) (by norm_num) (by norm_num) (by norm_num)

/-! ## Event Hub: TypedEventEmitter.emit vs SignalingChannel.emit

Handler behavior is an oracle `apply : Nat → W → W × Option E`: invoking
handler `h` on world `w` yields the world after its (possibly partial)
effects together with the error it threw, if any. -/

/-- A listener table: event name → ordered list of handler ids. -/
structure EmitterState where
  listeners : List (String × List Nat)
deriving Repr, DecidableEq

/-- `this.listeners.get(type)`. -/
def EmitterState.handlersFor (st : EmitterState) (ev : String) :
    Option (List Nat) :=
  (st.listeners.find? (fun p => p.1 == ev)).map Prod.snd

/-- Result of `TypedEventEmitter.emit`: the (unchanged) table, the final
world, the returned boolean, the handlers invoked in order, and the errors
logged by the catch blocks. The type has no error channel: `emit` itself
cannot throw. -/
structure EmitResult (W E : Type) where
  table : EmitterState
  world : W
  handled : Bool
  invoked : List Nat
  logged : List E

/-- The `handlers.forEach(handler => { try { handler(args[0]) } catch
(error) { console.error(...) } })` loop of `TypedEventEmitter.emit`: every
handler is invoked in order; a thrown error is caught and logged and the
loop continues. Returns final world, invoked handlers, logged errors. -/
def runHandlersCaught {W E : Type} (apply : Nat → W → W × Option E) :
    List Nat → W → W × List Nat × List E
  | [], w => (w, [], [])
  | h :: rest, w =>
    let p := apply h w
    let r := runHandlersCaught apply rest p.1
    match p.2 with
    | none => (r.1, h :: r.2.1, r.2.2)
    | some e => (r.1, h :: r.2.1, e :: r.2.2)

/-- `TypedEventEmitter.emit`: `if (!handlers || handlers.length === 0)
return false;` then the forEach loop with per-handler try/catch, then
`return true`. The listener table is only read, never written. -/
def typedEmit {W E : Type} (apply : Nat → W → W × Option E)
    (st : EmitterState) (ev : String) (w : W) : EmitResult W E :=
  match st.handlersFor ev with
  | none => ⟨st, w, false, [], []⟩
  | some [] => ⟨st, w, false, [], []⟩
  | some hs =>
    let r := runHandlersCaught apply hs w
    ⟨st, r.1, true, r.2.1, r.2.2⟩

/-- The loop of `SignalingChannel.emit`:
`const handlers = this.listeners.get(type) || []; for (const fn of handlers)
fn(data);` — crucially, with NO try/catch: the first handler that throws
aborts the loop and its exception escapes to the emitting caller. Returns
the handlers invoked, the final world, and the escaped error if any. -/
def runHandlersUncaught {W E : Type} (apply : Nat → W → W × Option E) :
    List Nat → W → List Nat × W × Option E
  | [], w => ([], w, none)
  | h :: rest, w =>
    let p := apply h w
    match p.2 with
    | some e => ([h], p.1, some e)
    | none =>
      let r := runHandlersUncaught apply rest p.1
      (h :: r.1, r.2.1, r.2.2)

/-- `SignalingChannel.emit(type, data)` (no try/catch around handlers). -/
def signalingEmit {W E : Type} (apply : Nat → W → W × Option E)
    (st : EmitterState) (ev : String) (w : W) : List Nat × W × Option E :=
  runHandlersUncaught apply ((st.handlersFor ev).getD []) w

/-! ## Theorems: C6 -/

/-- C6 counterexample: the claim covers every emit path, including
`SignalingChannel.emit`, which has no try/catch — with two handlers
subscribed to `joined` and the first one throwing, only the first handler is
invoked (the second is prevented from running) and the exception escapes to
the publishing caller. -/
theorem signalingEmit_uncaught_counterexample :
    signalingEmit (W := Unit) (E := String)
        (fun h _ => ((), if h == 0 then some "handler threw" else none))
        ⟨[("joined", [0, 1])]⟩ "joined" ()
      = ([0], (), some "handler threw") := by
  decide

/-- C6 amended: the guarantee holds for the Event Hub
(`TypedEventEmitter.emit`): for every handler-behavior oracle `apply` —
including handlers that throw — `emit` returns normally (errors are caught
and logged; the result type has no error channel, so no exception escapes to
the publishing caller), leaves the subscription table unchanged, invokes
exactly the subscribed handlers in subscription order (a throwing handler
does not prevent the rest), and returns `false` exactly when no handler is
subscribed. The low-level `SignalingChannel.emit` does not catch: a handler
that throws there propagates to the emitting caller and skips the remaining
handlers. -/
theorem typedEmit_isolates_handler_errors {W E : Type}
    (apply : Nat → W → W × Option E) (st : EmitterState) (ev : String) (w : W) :
    (typedEmit apply st ev w).table = st ∧
    (typedEmit apply st ev w).invoked = (st.handlersFor ev).getD [] ∧
    ((typedEmit apply st ev w).handled = false ↔
      (st.handlersFor ev).getD [] = []) := by
  have hrun : ∀ (hs : List Nat) (w0 : W),
      (runHandlersCaught apply hs w0).2.1 = hs := by
    intro hs
    induction hs with
    | nil => intro w0; rfl
    | cons h rest ih =>
      intro w0
      simp only [runHandlersCaught]
      cases (apply h w0).2 <;> simp [ih]
  cases hfind : st.handlersFor ev with
  | none => simp [typedEmit, hfind]
  | some hs =>
    cases hs with
    | nil => simp [typedEmit, hfind]
    | cons h rest => simp [typedEmit, hfind, hrun]

/-! ## sendWhenReady (SignalingChannel.ts)

`sendWhenReady`, called while not connected, registers a pair of closures:
`onOpen` (send the message, `off('open', onOpen)`, `off('error', onError)`,
resolve) on the `open` list and `onError` (remove both, reject) on the
`error` list. The channel's own `emit` then dispatches socket events over
the LIVE handler arrays. -/

/-- Handlers that can sit in the channel's `open`/`error` listener lists in
this scenario: the `onOpen`/`onError` closure of pending call `k`, or any
other subscribed handler that neither settles these promises nor
unsubscribes anything (`inert`, e.g. the manager's own lifecycle handlers). -/
inductive SHandler where
  | swrOpen (k : Nat)
  | swrErr (k : Nat)
  | inert (tag : Nat)
deriving Repr, DecidableEq

/-- Is this handler inert? -/
def SHandler.isInert : SHandler → Bool
  | .inert _ => true
  | _ => false

/-- A promise settlement of pending call `k`. -/
inductive Settle where
  | resolved (k : Nat)
  | rejected (k : Nat)
deriving Repr, DecidableEq

/-- The channel state visible to `sendWhenReady`: the `open` and `error`
listener lists, the transport log of transmitted messages (by pending-call
index), and the chronological promise settlements. -/
structure SwrState where
  openHandlers : List SHandler
  errorHandlers : List SHandler
  sent : List Nat
  settled : List Settle
deriving Repr, DecidableEq

/-- One handler invocation. `onOpen` of call `k`:
`this.socket.send(JSON.stringify(message)); this.off('open', onOpen);
this.off('error', onError); resolve();` — `off` is `indexOf` + `splice`,
i.e. removal of the first occurrence. `onError` of call `k`: remove both
handlers, `reject(error)`. Inert handlers leave this state unchanged. -/
def applySHandler (s : SwrState) : SHandler → SwrState
  | .swrOpen k =>
    { s with sent := s.sent ++ [k],
             openHandlers := s.openHandlers.erase (.swrOpen k),
             errorHandlers := s.errorHandlers.erase (.swrErr k),
             settled := s.settled ++ [.resolved k] }
  | .swrErr k =>
    { s with openHandlers := s.openHandlers.erase (.swrOpen k),
             errorHandlers := s.errorHandlers.erase (.swrErr k),
             settled := s.settled ++ [.rejected k] }
  | .inert _ => s

/-- The list the dispatch of event `sel` iterates over:
`true` = the `open` list, `false` = the `error` list. -/
def SwrState.listOf (s : SwrState) (sel : Bool) : List SHandler :=
  if sel then s.openHandlers else s.errorHandlers

/-- The dispatch loop of `SignalingChannel.emit` for the open/error events:
`const handlers = this.listeners.get(type) || []; for (const fn of handlers)
fn(data);` — `handlers` aliases the LIVE array, and `for..of` advances an
index that is re-checked against the CURRENT length each step, so a handler
that splices itself out shifts the remaining entries left under the
iterator. `fuel` bounds the loop; the iteration over an array that only
ever shrinks runs at most its initial length many steps. -/
def dispatchAt (sel : Bool) : Nat → Nat → SwrState → SwrState
  | 0, _, s => s
  | fuel + 1, i, s =>
    match (s.listOf sel)[i]? with
    | none => s
    | some h => dispatchAt sel fuel (i + 1) (applySHandler s h)

/-- The socket `open` event reaching the listeners: `this.emit('open', {})`. -/
def emitOpen (s : SwrState) : SwrState :=
  dispatchAt true s.openHandlers.length 0 s

/-- The socket `error` event reaching the listeners:
`this.emit('error', err)`. -/
def emitError (s : SwrState) : SwrState :=
  dispatchAt false s.errorHandlers.length 0 s

/-- The channel state after two `sendWhenReady` calls while not connected:
each pushed its `onOpen` onto the `open` list and its `onError` onto the
`error` list, in call order. -/
def twoPendingSwr : SwrState :=
  { openHandlers := [.swrOpen 0, .swrOpen 1],
    errorHandlers := [.swrErr 0, .swrErr 1],
    sent := [], settled := [] }

theorem applySHandler_inert (s : SwrState) (h : SHandler)
    (hh : h.isInert = true) : applySHandler s h = s := by
  cases h with
  | swrOpen k => simp [SHandler.isInert] at hh
  | swrErr k => simp [SHandler.isInert] at hh
  | inert t => rfl

theorem dispatchAt_all_inert (sel : Bool) :
    ∀ (fuel i : Nat) (s : SwrState),
    (∀ h ∈ s.openHandlers, h.isInert = true) →
    (∀ h ∈ s.errorHandlers, h.isInert = true) →
    dispatchAt sel fuel i s = s := by
  intro fuel
  induction fuel with
  | zero => intro i s _ _; rfl
  | succ fuel ih =>
    intro i s ho he
    rw [dispatchAt]
    cases hg : (s.listOf sel)[i]? with
    | none => rfl
    | some h =>
      have hmem : h ∈ s.listOf sel := List.getElem?_mem hg
      have hin : h.isInert = true := by
        cases sel with
        | true => exact ho h (by simpa [SwrState.listOf] using hmem)
        | false => exact he h (by simpa [SwrState.listOf] using hmem)
      show dispatchAt sel fuel (i + 1) (applySHandler s h) = s
      rw [applySHandler_inert s h hin]
      exact ih (i + 1) s ho he

theorem dispatchAt_skip_inert (sel : Bool) :
    ∀ (n fuel i : Nat) (s : SwrState),
    (∀ j, j < n → ∃ h, (s.listOf sel)[i + j]? = some h ∧ h.isInert = true) →
    dispatchAt sel (n + fuel) i s = dispatchAt sel fuel (i + n) s := by
  intro n
  induction n with
  | zero => intro fuel i s _; simp
  | succ n ih =>
    intro fuel i s hcond
    obtain ⟨h, hget, hin⟩ := hcond 0 (Nat.succ_pos n)
    have hstep : n + 1 + fuel = (n + fuel) + 1 := by omega
    rw [hstep, dispatchAt]
    simp only [Nat.add_zero] at hget
    rw [hget]
    show dispatchAt sel (n + fuel) (i + 1) (applySHandler s h)
      = dispatchAt sel fuel (i + (n + 1)) s
    rw [applySHandler_inert s h hin]
    have := ih fuel (i + 1) s (by
      intro j hj
      have := hcond (j + 1) (by omega)
      simpa [Nat.add_assoc, Nat.add_comm 1 j] using this)
    rw [this]
    congr 1
    omega

theorem swrOpenNotInInert (k : Nat) (l : List SHandler)
    (hl : ∀ h ∈ l, h.isInert = true) : SHandler.swrOpen k ∉ l := by
  intro hmem
  have := hl _ hmem
  simp [SHandler.isInert] at this

theorem swrErrNotInInert (k : Nat) (l : List SHandler)
    (hl : ∀ h ∈ l, h.isInert = true) : SHandler.swrErr k ∉ l := by
  intro hmem
  have := hl _ hmem
  simp [SHandler.isInert] at this

theorem applySwrOpen_eq (s : SwrState) (a b c d : List SHandler) (k : Nat)
    (hopen : s.openHandlers = a ++ SHandler.swrOpen k :: b)
    (herr : s.errorHandlers = c ++ SHandler.swrErr k :: d)
    (ha : ∀ h ∈ a, h.isInert = true) (hc : ∀ h ∈ c, h.isInert = true) :
    applySHandler s (SHandler.swrOpen k)
      = { s with openHandlers := a ++ b, errorHandlers := c ++ d,
                 sent := s.sent ++ [k],
                 settled := s.settled ++ [Settle.resolved k] } := by
  simp only [applySHandler]
  rw [hopen, herr,
    List.erase_append_right _ (swrOpenNotInInert k a ha), List.erase_cons_head,
    List.erase_append_right _ (swrErrNotInInert k c hc), List.erase_cons_head]

theorem applySwrErr_eq (s : SwrState) (a b c d : List SHandler) (k : Nat)
    (hopen : s.openHandlers = a ++ SHandler.swrOpen k :: b)
    (herr : s.errorHandlers = c ++ SHandler.swrErr k :: d)
    (ha : ∀ h ∈ a, h.isInert = true) (hc : ∀ h ∈ c, h.isInert = true) :
    applySHandler s (SHandler.swrErr k)
      = { s with openHandlers := a ++ b, errorHandlers := c ++ d,
                 settled := s.settled ++ [Settle.rejected k] } := by
  simp only [applySHandler]
  rw [hopen, herr,
    List.erase_append_right _ (swrOpenNotInInert k a ha), List.erase_cons_head,
    List.erase_append_right _ (swrErrNotInInert k c hc), List.erase_cons_head]

theorem dispatchAt_through (sel : Bool) (s : SwrState)
    (pre post : List SHandler) (x : SHandler)
    (hlist : s.listOf sel = pre ++ x :: post)
    (hpre : ∀ h ∈ pre, h.isInert = true)
    (hao : ∀ h ∈ (applySHandler s x).openHandlers, h.isInert = true)
    (hae : ∀ h ∈ (applySHandler s x).errorHandlers, h.isInert = true) :
    dispatchAt sel (s.listOf sel).length 0 s = applySHandler s x := by
  have hlen : (s.listOf sel).length = pre.length + (1 + post.length) := by
    rw [hlist]
    simp
    omega
  rw [hlen]
  rw [dispatchAt_skip_inert sel pre.length (1 + post.length) 0 s (by
    intro j hj
    rw [Nat.zero_add, hlist]
    cases hh : pre[j]? with
    | none =>
      rw [List.getElem?_eq_none_iff] at hh
      omega
    | some h =>
      refine ⟨h, ?_, hpre h (List.getElem?_mem hh)⟩
      rw [List.getElem?_append_left hj]
      exact hh)]
  have hx : (s.listOf sel)[pre.length]? = some x := by
    rw [hlist, List.getElem?_append_right (Nat.le_refl _)]
    simp
  rw [Nat.zero_add, show 1 + post.length = post.length + 1 from Nat.add_comm 1 _,
    dispatchAt, hx]
  show dispatchAt sel post.length (pre.length + 1) (applySHandler s x)
    = applySHandler s x
  exact dispatchAt_all_inert sel post.length (pre.length + 1)
    (applySHandler s x) hao hae

/-! ## Theorems: C10 -/

/-- C10 counterexample: with two `sendWhenReady` promises pending, the first
`open` event does NOT settle the second one. `emit` iterates the live
`open` array; the first `onOpen` splices itself out, shifting the second
`onOpen` into the slot the iterator has already passed, so it is skipped:
only promise 0 resolves; promise 1 stays unsettled although its handlers are
still registered — contradicting the claim that the first subsequent open or
error event settles every pending `sendWhenReady` promise. -/
theorem sendWhenReady_second_promise_skipped :
    emitOpen twoPendingSwr
      = { openHandlers := [SHandler.swrOpen 1],
          errorHandlers := [SHandler.swrErr 1],
          sent := [0], settled := [Settle.resolved 0] } ∧
    Settle.resolved 1 ∉ (emitOpen twoPendingSwr).settled ∧
    Settle.rejected 1 ∉ (emitOpen twoPendingSwr).settled ∧
    SHandler.swrOpen 1 ∈ (emitOpen twoPendingSwr).openHandlers := by
  refine ⟨by decide, by decide, by decide, by decide⟩

/-- C10 amended: a pending `sendWhenReady` promise settles at most once, and
the first subsequent `open` or `error` event settles it PROVIDED its
handlers are not skipped by the live-array iteration — in particular
whenever it is the only pending `sendWhenReady` on the channel (all other
subscribed handlers inert). Then: the `open` event transmits the message
and resolves the promise exactly once and removes both temporary handlers
from the listener lists, after which further `open` or `error` events
settle nothing; symmetrically, an `error` event first rejects the promise
exactly once, removes both handlers, and later events settle nothing. -/
theorem sendWhenReady_settles_once (s : SwrState)
    (a b c d : List SHandler) (k : Nat)
    (hopen : s.openHandlers = a ++ SHandler.swrOpen k :: b)
    (herr : s.errorHandlers = c ++ SHandler.swrErr k :: d)
    (ha : ∀ h ∈ a, h.isInert = true) (hb : ∀ h ∈ b, h.isInert = true)
    (hc : ∀ h ∈ c, h.isInert = true) (hd : ∀ h ∈ d, h.isInert = true) :
    (emitOpen s).sent = s.sent ++ [k] ∧
    (emitOpen s).settled = s.settled ++ [Settle.resolved k] ∧
    (emitOpen s).openHandlers = a ++ b ∧
    (emitOpen s).errorHandlers = c ++ d ∧
    (emitOpen (emitOpen s)).settled = (emitOpen s).settled ∧
    (emitError (emitOpen s)).settled = (emitOpen s).settled ∧
    (emitError s).settled = s.settled ++ [Settle.rejected k] ∧
    (emitError s).sent = s.sent ∧
    (emitError s).openHandlers = a ++ b ∧
    (emitError s).errorHandlers = c ++ d ∧
    (emitOpen (emitError s)).settled = (emitError s).settled ∧
    (emitError (emitError s)).settled = (emitError s).settled := by
  have hmemo : ∀ h ∈ a ++ b, h.isInert = true := by
    intro h hm
    rcases List.mem_append.1 hm with hm | hm
    · exact ha h hm
    · exact hb h hm
  have hmeme : ∀ h ∈ c ++ d, h.isInert = true := by
    intro h hm
    rcases List.mem_append.1 hm with hm | hm
    · exact hc h hm
    · exact hd h hm
  have hopenEq : emitOpen s
      = { s with openHandlers := a ++ b, errorHandlers := c ++ d,
                 sent := s.sent ++ [k],
                 settled := s.settled ++ [Settle.resolved k] } := by
    have hlist : s.listOf true = a ++ SHandler.swrOpen k :: b := by
      simpa [SwrState.listOf] using hopen
    have happ := applySwrOpen_eq s a b c d k hopen herr ha hc
    have := dispatchAt_through true s a b (SHandler.swrOpen k) hlist ha
      (by rw [happ]; exact hmemo) (by rw [happ]; exact hmeme)
    rw [emitOpen, show s.openHandlers.length = (s.listOf true).length from by
      simp [SwrState.listOf], this, happ]
  have herrEq : emitError s
      = { s with openHandlers := a ++ b, errorHandlers := c ++ d,
                 settled := s.settled ++ [Settle.rejected k] } := by
    have hlist : s.listOf false = c ++ SHandler.swrErr k :: d := by
      simpa [SwrState.listOf] using herr
    have happ := applySwrErr_eq s a b c d k hopen herr ha hc
    have := dispatchAt_through false s c d (SHandler.swrErr k) hlist hc
      (by rw [happ]; exact hmemo) (by rw [happ]; exact hmeme)
    rw [emitError, show s.errorHandlers.length = (s.listOf false).length from by
      simp [SwrState.listOf], this, happ]
  have hinertO : ∀ (t : SwrState), t.openHandlers = a ++ b →
      t.errorHandlers = c ++ d → emitOpen t = t ∧ emitError t = t := by
    intro t hto hte
    constructor
    · exact dispatchAt_all_inert true _ _ t (hto ▸ hmemo) (hte ▸ hmeme)
    · exact dispatchAt_all_inert false _ _ t (hto ▸ hmemo) (hte ▸ hmeme)
  obtain ⟨hoo, hoe⟩ := hinertO (emitOpen s) (by rw [hopenEq]) (by rw [hopenEq])
  obtain ⟨heo, hee⟩ := hinertO (emitError s) (by rw [herrEq]) (by rw [herrEq])
  refine ⟨by rw [hopenEq], by rw [hopenEq], by rw [hopenEq], by rw [hopenEq],
    by rw [hoo], by rw [hoe], by rw [herrEq], by rw [herrEq], by rw [herrEq],
    by rw [herrEq], by rw [heo], by rw [hee]⟩

/-- The channel state after one `sendWhenReady` call while not connected,
with an inert manager handler ahead of it on the `open` list and one behind
it on the `error` list. -/
def onePendingSwr : SwrState :=
  { openHandlers := [SHandler.inert 7, SHandler.swrOpen 0],
    errorHandlers := [SHandler.swrErr 0, SHandler.inert 9],
    sent := [], settled := [] }

/-- Witness for `sendWhenReady_settles_once`: one pending `sendWhenReady`
(call 0) with an inert manager handler before it on the `open` list and one
after it on the `error` list. -/
theorem sendWhenReady_settles_once_witness :
    (emitOpen onePendingSwr).sent = [] ++ [0] ∧
    (emitOpen onePendingSwr).settled = [] ++ [Settle.resolved 0] ∧
    (emitOpen onePendingSwr).openHandlers = [SHandler.inert 7] ++ [] ∧
    (emitOpen onePendingSwr).errorHandlers = [] ++ [SHandler.inert 9] ∧
    (emitOpen (emitOpen onePendingSwr)).settled
      = (emitOpen onePendingSwr).settled ∧
    (emitError (emitOpen onePendingSwr)).settled
      = (emitOpen onePendingSwr).settled ∧
    (emitError onePendingSwr).settled = [] ++ [Settle.rejected 0] ∧
    (emitError onePendingSwr).sent = [] ∧
    (emitError onePendingSwr).openHandlers = [SHandler.inert 7] ++ [] ∧
    (emitError onePendingSwr).errorHandlers = [] ++ [SHandler.inert 9] ∧
    (emitOpen (emitError onePendingSwr)).settled
      = (emitError onePendingSwr).settled ∧
    (emitError (emitError onePendingSwr)).settled
      = (emitError onePendingSwr).settled :=
  sendWhenReady_settles_once onePendingSwr [SHandler.inert 7] [] []
    [SHandler.inert 9] 0 rfl rfl (by decide) (by decide) (by decide) (by decide)
